import Mathlib

/-!
Shallow embedding of `src/config/boards/shields/kabarga/status_led.c`.

The C module mutates a global brightness cache (`led_brightness`, one
`uint8_t` per LED) and issues hardware calls (`led_set_brightness`,
`led_off`, `k_msleep`).  We model the module state as a pair of
  * the trace of hardware calls issued so far (a `List HWWrite`), and
  * the brightness cache (a `List Nat` of length `LED_COUNT`,
    each entry a `uint8_t` value, i.e. reduced mod 256).
Every C function that touches LEDs becomes a function `ST → ST` that
appends to the trace and updates the cache, translated loop-for-loop
from the source.  A `setB led v` event records the *raw* integer
argument `v` passed to `set_individual_led_brightness`; the hardware
(and the cache) receive `v % 256`, the `uint8_t` conversion performed
at the call boundary.
-/

namespace Kabarga

/-- Fade durations from the `#define`s at the top of `status_led.c`. -/
def FADE_DURATION_PROFILE_MS : Nat := 400

/-- Constant from `#define FADE_DURATION_BATTERY_MS 800`. -/
def FADE_DURATION_BATTERY_MS : Nat := 800

/-- Constant from `#define FADE_DURATION_USB_MS 400`. -/
def FADE_DURATION_USB_MS : Nat := 400

/-- Constant from `#define FADE_DURATION_DISCONNECT_MS 300`. -/
def FADE_DURATION_DISCONNECT_MS : Nat := 300

/-- Constant from `#define BLINK_HOLD_DURATION_MS 100`. -/
def BLINK_HOLD_DURATION_MS : Nat := 100

/-- Constant from `#define LED_STATUS_ON 100`. -/
def LED_STATUS_ON : Nat := 100

/-- Constant from `#define LED_STATUS_OFF 0`. -/
def LED_STATUS_OFF : Nat := 0

/-- Number of LEDs, `LED_COUNT` from the `LedType` enum: four. -/
def LED_COUNT : Nat := 4

/-- Constant from `#define LED_FADE_STEPS 100`. -/
def LED_FADE_STEPS : Nat := 100

/-- One hardware call issued by the module: a brightness write
(`led_set_brightness`, recording the raw argument before `uint8_t`
conversion), an off command (`led_off`), or a sleep (`k_msleep`). -/
inductive HWWrite where
  | setB (led : Nat) (value : Nat)
  | off (led : Nat)
  | sleep (ms : Nat)
deriving DecidableEq, Repr

/-- Module state: trace of hardware calls so far, and the
`led_brightness` cache. -/
abbrev ST := List HWWrite × List Nat

/-- Model of `k_msleep(ms)`: records the sleep in the trace. -/
def k_msleep (ms : Nat) (s : ST) : ST :=
  (s.1 ++ [HWWrite.sleep ms], s.2)

/-- Model of `set_individual_led_brightness(led, brightness)`: issues the
hardware write and stores the value in `led_brightness[led]`.  The C
parameter is `uint8_t`, so the value is truncated mod 256 at the call. -/
def set_individual_led_brightness (led : Nat) (brightness : Nat) (s : ST) : ST :=
  (s.1 ++ [HWWrite.setB led brightness], s.2.set led (brightness % 256))

/-- Model of `get_led_brightness(led)`: reads the cache. -/
def get_led_brightness (led : Nat) (s : ST) : Nat :=
  s.2.getD led 0

/-- Model of `turn_off_all_leds()`: issues `led_off` to every LED; does NOT
touch the `led_brightness` cache. -/
def turn_off_all_leds (s : ST) : ST :=
  ((List.range LED_COUNT).foldl (fun t i => t ++ [HWWrite.off i]) s.1, s.2)

/-- Model of `fade_in_led(led, duration_ms)`: for `i = 0 .. LED_FADE_STEPS`,
set brightness `LED_STATUS_ON * i / LED_FADE_STEPS` then sleep
`duration_ms / LED_FADE_STEPS`. -/
def fade_in_led (led : Nat) (duration_ms : Nat) (s : ST) : ST :=
  let step_delay := duration_ms / LED_FADE_STEPS
  (List.range (LED_FADE_STEPS + 1)).foldl
    (fun s i =>
      k_msleep step_delay
        (set_individual_led_brightness led (LED_STATUS_ON * i / LED_FADE_STEPS) s))
    s

/-- Inner loop body of `fade_out_all_leds` at descending step `j`:
every LED is rescaled from its current cached brightness. -/
def fade_out_all_leds_step (j : Nat) (s : ST) : ST :=
  (List.range LED_COUNT).foldl
    (fun s i =>
      set_individual_led_brightness i (get_led_brightness i s * j / LED_FADE_STEPS) s)
    s

/-- Model of `fade_out_all_leds(duration_ms)`: for `j = LED_FADE_STEPS` down to
`0`, rescale every LED then sleep `duration_ms / LED_FADE_STEPS`. -/
def fade_out_all_leds (duration_ms : Nat) (s : ST) : ST :=
  let step_delay := duration_ms / LED_FADE_STEPS
  (List.range (LED_FADE_STEPS + 1)).foldl
    (fun s idx => k_msleep step_delay (fade_out_all_leds_step (LED_FADE_STEPS - idx) s))
    s

/-- Mask test from `smooth_blink_leds`:
`led_mask & (1 << (LED_COUNT - 1 - k))` with `led_mask` a `uint8_t`. -/
def mask_selects (led_mask k : Nat) : Prop :=
  (led_mask % 256) &&& (1 <<< (LED_COUNT - 1 - k)) ≠ 0

instance (led_mask k : Nat) : Decidable (mask_selects led_mask k) :=
  inferInstanceAs (Decidable ((led_mask % 256) &&& (1 <<< (LED_COUNT - 1 - k)) ≠ 0))

/-- Fade-in inner loop body of `smooth_blink_leds` at step `j`:
every masked LED is set to `LED_STATUS_ON * j / LED_FADE_STEPS`. -/
def smooth_blink_fade_in_step (led_mask j : Nat) (s : ST) : ST :=
  (List.range LED_COUNT).foldl
    (fun s k =>
      if mask_selects led_mask k then
        set_individual_led_brightness k (LED_STATUS_ON * j / LED_FADE_STEPS) s
      else s)
    s

/-- Fade-out inner loop body of `smooth_blink_leds` at descending step
`j`: every masked LED is rescaled from its current cached brightness. -/
def smooth_blink_fade_out_step (led_mask j : Nat) (s : ST) : ST :=
  (List.range LED_COUNT).foldl
    (fun s k =>
      if mask_selects led_mask k then
        set_individual_led_brightness k (get_led_brightness k s * j / LED_FADE_STEPS) s
      else s)
    s

/-- One repetition of the `smooth_blink_leds` loop body: fade-in phase,
hold, fade-out phase, hold.  The step delay is
`duration_ms / (2 * LED_FADE_STEPS)`. -/
def smooth_blink_once (led_mask duration_ms : Nat) (s : ST) : ST :=
  let step_delay := duration_ms / (2 * LED_FADE_STEPS)
  let s1 := (List.range (LED_FADE_STEPS + 1)).foldl
    (fun s j => k_msleep step_delay (smooth_blink_fade_in_step led_mask j s)) s
  let s2 := k_msleep BLINK_HOLD_DURATION_MS s1
  let s3 := (List.range (LED_FADE_STEPS + 1)).foldl
    (fun s idx =>
      k_msleep step_delay (smooth_blink_fade_out_step led_mask (LED_FADE_STEPS - idx) s)) s2
  k_msleep BLINK_HOLD_DURATION_MS s3

/-- Model of `smooth_blink_leds(led_mask, count, duration_ms)`. -/
def smooth_blink_leds (led_mask count duration_ms : Nat) (s : ST) : ST :=
  (List.range count).foldl (fun s _ => smooth_blink_once led_mask duration_ms s) s

/-- The `zmk_usb_conn_state` values the module compares against. -/
inductive UsbConnState where
  | none
  | powered
  | hid
deriving DecidableEq, Repr

/-- Result of one run of `check_bluetooth_connection_handler`: the new
`is_connection_checking` flag, whether the work item was rescheduled
(`k_work_reschedule(..., K_SECONDS(4))`), and the LED state. -/
structure CheckResult where
  is_connection_checking : Bool
  rescheduled : Bool
  st : ST
deriving DecidableEq, Repr

/-- Model of `check_bluetooth_connection_handler`: no-op when the checking flag
is clear; clears the flag when BLE is connected or USB is non-none;
otherwise blinks mask `0b0001` once at the disconnect duration and
reschedules itself. -/
def check_bluetooth_connection_handler (is_connection_checking : Bool)
    (ble_connected : Bool) (usb_conn_state : UsbConnState) (s : ST) : CheckResult :=
  if is_connection_checking = false then
    ⟨is_connection_checking, false, s⟩
  else if ble_connected = true ∨ usb_conn_state ≠ UsbConnState.none then
    ⟨false, false, s⟩
  else
    ⟨is_connection_checking, true,
      smooth_blink_leds 0b0001 1 FADE_DURATION_DISCONNECT_MS s⟩

/-- Repeated invocations of the disconnect-check handler, fed an
environment `env n = (BLE connected?, USB state)` observed at the n-th
run; the pair carried along is (checking flag, LED state). -/
def check_loop_iter (env : Nat → Bool × UsbConnState) (init : Bool × ST) : Nat → Bool × ST
  | 0 => init
  | n + 1 =>
    let p := check_loop_iter env init n
    let r := check_bluetooth_connection_handler p.1 (env n).1 (env n).2 p.2
    (r.is_connection_checking, r.st)

/-- Model of `battery_animation_handler`, with the battery state of charge
passed explicitly: the threshold ladder from the source. -/
def battery_animation_handler (level : Nat) (s : ST) : ST :=
  if level ≤ 15 then smooth_blink_leds 0b1000 3 FADE_DURATION_BATTERY_MS s
  else if level ≤ 30 then smooth_blink_leds 0b1000 1 FADE_DURATION_BATTERY_MS s
  else if level ≤ 50 then smooth_blink_leds 0b1100 1 FADE_DURATION_BATTERY_MS s
  else if level ≤ 80 then smooth_blink_leds 0b1110 1 FADE_DURATION_BATTERY_MS s
  else smooth_blink_leds 0b1110 3 FADE_DURATION_BATTERY_MS s

/-- Spec-side battery mapping, written from the spec's words: a pure
function from percentage to (mask, repeat count), inclusive ascending
thresholds, first match wins. -/
def battery_choice_spec (level : Nat) : Nat × Nat :=
  if level ≤ 15 then (0b1000, 3)
  else if level ≤ 30 then (0b1000, 1)
  else if level ≤ 50 then (0b1100, 1)
  else if level ≤ 80 then (0b1110, 1)
  else (0b1110, 3)

/-- Model of `ble_profile_handler`, with the stored `profile_count_blink` and
`is_connection_checking` passed explicitly.  Returns the LED state, the
new checking flag, and whether the disconnect-check loop was started. -/
def ble_profile_handler (profile_count_blink : Nat) (is_connection_checking : Bool)
    (s : ST) : ST × Bool × Bool :=
  let s' := smooth_blink_leds (0b1000 >>> profile_count_blink) 1 FADE_DURATION_PROFILE_MS s
  if is_connection_checking = false then (s', true, true)
  else (s', is_connection_checking, false)

/-- Model of `ble_profile_listener`, with the event's profile index and the
stored `profile_count_blink` passed explicitly.  Returns the new stored
index and whether `ble_profile_work` was scheduled. -/
def ble_profile_listener (index : Nat) (profile_count_blink : Nat) : Nat × Bool :=
  if index ≤ 2 then (index, true) else (profile_count_blink, false)

/-- The brightness values a given LED's hardware receives, in order,
from a trace (the `uint8_t` value delivered to `led_set_brightness`). -/
def writesTo (led : Nat) (t : List HWWrite) : List Nat :=
  t.filterMap (fun e =>
    match e with
    | HWWrite.setB l v => if l = led then some (v % 256) else none
    | _ => none)

/-- The sleep durations in a trace, in order. -/
def sleepsOf (t : List HWWrite) : List Nat :=
  t.filterMap (fun e =>
    match e with
    | HWWrite.sleep ms => some ms
    | _ => none)

/-- The `uint8_t` value the hardware most recently received for a given
LED, if any; `led_off` drives the LED to the off level 0. -/
def lastHWValue (t : List HWWrite) (led : Nat) : Option Nat :=
  t.foldl (fun acc e =>
    match e with
    | HWWrite.setB l v => if l = led then some (v % 256) else acc
    | HWWrite.off l => if l = led then some 0 else acc
    | HWWrite.sleep _ => acc) none

/-- The module's LED-writing operations, for reasoning about arbitrary
sequences of them. -/
inductive LedOp where
  | set_led (led brightness : Nat)
  | fade_in (led duration : Nat)
  | fade_out (duration : Nat)
  | blink (mask count duration : Nat)
  | off_all
deriving DecidableEq, Repr

/-- Run one operation on the module state. -/
def runOp (s : ST) : LedOp → ST
  | LedOp.set_led led b => set_individual_led_brightness led b s
  | LedOp.fade_in led d => fade_in_led led d s
  | LedOp.fade_out d => fade_out_all_leds d s
  | LedOp.blink m c d => smooth_blink_leds m c d s
  | LedOp.off_all => turn_off_all_leds s

/-- Run a sequence of operations on the module state. -/
def runOps (s : ST) (ops : List LedOp) : ST :=
  ops.foldl runOp s

/-- Whether an operation is one of the animation primitives (every
brightness value those pass to `set_individual_led_brightness` is
computed by the module itself, not supplied by a caller). -/
def LedOp.isAnim : LedOp → Bool
  | LedOp.set_led _ _ => false
  | _ => true

/-- The descending step indices `LED_FADE_STEPS, ..., 1, 0` that the
fade-out loops walk through. -/
def descSteps : List Nat :=
  (List.range (LED_FADE_STEPS + 1)).map (fun idx => LED_FADE_STEPS - idx)

/-- The cascaded fade-out value sequence: starting from cached
brightness `b`, each descending step `j` writes `prev * j /
LED_FADE_STEPS` (as a `uint8_t`), where `prev` is the value written at
the previous step (the current cached brightness). -/
def cascW (b : Nat) : List Nat → List Nat
  | [] => []
  | j :: rest =>
    let v := b * j / LED_FADE_STEPS % 256
    v :: cascW v rest

/-- States agreeing, as far as LED `led` can tell, with trace `t` and
cache `c`: the LED has received no new hardware write and its cached
brightness is unchanged. -/
def Untouched (led : Nat) (t : List HWWrite) (c : List Nat) (s : ST) : Prop :=
  writesTo led s.1 = writesTo led t ∧ s.2.getD led 0 = c.getD led 0

/-- Cache coherence relative to an initial cache `c0`: for every LED,
the cached brightness equals the value the hardware most recently
received (or the initial cache entry if it never received one). -/
def Coherent (c0 : List Nat) (s : ST) : Prop :=
  s.2.length = 4
    ∧ ∀ led, led < 4 → (lastHWValue s.1 led).getD (c0.getD led 0) = s.2.getD led 0

/-- Range invariant: the cache has its four entries in `[0, 100]` and
every brightness argument ever passed to
`set_individual_led_brightness` is in `[0, 100]`. -/
def InRange (s : ST) : Prop :=
  s.2.length = 4
    ∧ (∀ b ∈ s.2, b ≤ 100)
    ∧ ∀ e ∈ s.1, ∀ l v, e = HWWrite.setB l v → v ≤ 100

/-!  Helper lemmas about traces, caches and the animation loops. -/

theorem writesTo_append (led : Nat) (t1 t2 : List HWWrite) :
    writesTo led (t1 ++ t2) = writesTo led t1 ++ writesTo led t2 := by
  unfold writesTo
  exact List.filterMap_append t1 t2 _

theorem sleepsOf_append (t1 t2 : List HWWrite) :
    sleepsOf (t1 ++ t2) = sleepsOf t1 ++ sleepsOf t2 := by
  unfold sleepsOf
  exact List.filterMap_append t1 t2 _

theorem writesTo_setB (led l v : Nat) :
    writesTo led [HWWrite.setB l v] = if l = led then [v % 256] else [] := by
  unfold writesTo
  by_cases h : l = led <;> simp [h]

theorem getD_set_ne (c : List Nat) {k led : Nat} (h : k ≠ led) (v : Nat) :
    (c.set k v).getD led 0 = c.getD led 0 := by
  simp [List.getD_eq_getElem?_getD, List.getElem?_set_ne h]

/-- Generic invariant preservation through a `foldl`. -/
theorem foldl_inv {α β : Type} {P : β → Prop} {f : β → α → β} :
    ∀ (l : List α) (s : β), P s → (∀ b a, a ∈ l → P b → P (f b a)) → P (l.foldl f s) := by
  intro l
  induction l with
  | nil => intro s h _; exact h
  | cons a as ih =>
    intro s h hf
    exact ih (f s a) (hf s a (List.mem_cons_self a as) h)
      (fun b x hx => hf b x (List.mem_cons_of_mem a hx))

/-- Trace of a fade loop: each iteration appends one brightness write
and one sleep. -/
theorem writesTo_fade_fold (led d : Nat) (v : Nat → Nat) :
    ∀ (l : List Nat) (t : List HWWrite) (c : List Nat),
      writesTo led ((l.foldl
          (fun s i => k_msleep d (set_individual_led_brightness led (v i) s)) (t, c)).1)
        = writesTo led t ++ l.map (fun i => v i % 256) := by
  intro l
  induction l with
  | nil => intro t c; simp
  | cons a as ih =>
    intro t c
    rw [List.foldl_cons]
    have hstep : k_msleep d (set_individual_led_brightness led (v a) (t, c))
        = ((t ++ [HWWrite.setB led (v a)]) ++ [HWWrite.sleep d], c.set led (v a % 256)) := rfl
    rw [hstep, ih]
    simp [writesTo_append, writesTo_setB, writesTo]

theorem untouched_set {led : Nat} {t c} (k v : Nat) (hk : k ≠ led) {s : ST}
    (h : Untouched led t c s) : Untouched led t c (set_individual_led_brightness k v s) := by
  obtain ⟨h1, h2⟩ := h
  constructor
  · rw [set_individual_led_brightness, writesTo_append, writesTo_setB, if_neg hk,
      List.append_nil, h1]
  · rw [set_individual_led_brightness]
    exact (getD_set_ne s.2 hk (v % 256)).trans h2

theorem untouched_sleep {led : Nat} {t c} (d : Nat) {s : ST}
    (h : Untouched led t c s) : Untouched led t c (k_msleep d s) := by
  obtain ⟨h1, h2⟩ := h
  refine ⟨?_, h2⟩
  rw [k_msleep, writesTo_append, h1]
  simp [writesTo]

theorem untouched_blink_in_step {led mask : Nat} {t c}
    (hsel : ∀ k, k < LED_COUNT → mask_selects mask k → k ≠ led) (j : Nat) {s : ST}
    (h : Untouched led t c s) : Untouched led t c (smooth_blink_fade_in_step mask j s) := by
  unfold smooth_blink_fade_in_step
  refine foldl_inv _ s h (fun b k hk hb => ?_)
  by_cases hm : mask_selects mask k
  · rw [if_pos hm]
    exact untouched_set k _ (hsel k (List.mem_range.mp hk) hm) hb
  · rw [if_neg hm]
    exact hb

theorem untouched_blink_out_step {led mask : Nat} {t c}
    (hsel : ∀ k, k < LED_COUNT → mask_selects mask k → k ≠ led) (j : Nat) {s : ST}
    (h : Untouched led t c s) : Untouched led t c (smooth_blink_fade_out_step mask j s) := by
  unfold smooth_blink_fade_out_step
  refine foldl_inv _ s h (fun b k hk hb => ?_)
  by_cases hm : mask_selects mask k
  · rw [if_pos hm]
    exact untouched_set k _ (hsel k (List.mem_range.mp hk) hm) hb
  · rw [if_neg hm]
    exact hb

theorem untouched_blink_once {led mask : Nat} {t c} (D : Nat)
    (hsel : ∀ k, k < LED_COUNT → mask_selects mask k → k ≠ led) {s : ST}
    (h : Untouched led t c s) : Untouched led t c (smooth_blink_once mask D s) := by
  unfold smooth_blink_once
  refine untouched_sleep _ ?_
  refine foldl_inv _ _ ?_
    (fun b j _ hb => untouched_sleep _ (untouched_blink_out_step hsel _ hb))
  refine untouched_sleep _ ?_
  exact foldl_inv _ _ h (fun b j _ hb => untouched_sleep _ (untouched_blink_in_step hsel _ hb))

theorem untouched_blink {led mask : Nat} (count D : Nat) (t : List HWWrite) (c : List Nat)
    (hsel : ∀ k, k < LED_COUNT → mask_selects mask k → k ≠ led) :
    Untouched led t c (smooth_blink_leds mask count D (t, c)) := by
  unfold smooth_blink_leds
  exact foldl_inv _ _ ⟨rfl, rfl⟩ (fun b j _ hb => untouched_blink_once D hsel hb)

theorem length_k_msleep (d : Nat) (s : ST) : ((k_msleep d s).1).length = s.1.length + 1 := by
  simp [k_msleep]

theorem length_set (k v : Nat) (s : ST) :
    ((set_individual_led_brightness k v s).1).length = s.1.length + 1 := by
  simp [set_individual_led_brightness]

theorem trace_len_foldl {k : Nat} {f : ST → Nat → ST}
    (hf : ∀ s a, ((f s a).1).length = s.1.length + k) :
    ∀ (l : List Nat) (s : ST), ((l.foldl f s).1).length = s.1.length + k * l.length := by
  intro l
  induction l with
  | nil => intro s; simp
  | cons a as ih =>
    intro s
    rw [List.foldl_cons, ih, hf, List.length_cons, Nat.mul_succ]
    omega

theorem blink_once_len_mask1 (D : Nat) (s : ST) :
    ((smooth_blink_once 1 D s).1).length = s.1.length + 406 := by
  have hin : ∀ (s : ST) (j : Nat),
      ((k_msleep (D / (2 * LED_FADE_STEPS)) (smooth_blink_fade_in_step 1 j s)).1).length
        = s.1.length + 2 := by
    intro s j
    rw [length_k_msleep,
      show smooth_blink_fade_in_step 1 j s
        = set_individual_led_brightness 3 (LED_STATUS_ON * j / LED_FADE_STEPS) s from rfl,
      length_set]
  have hout : ∀ (s : ST) (idx : Nat),
      ((k_msleep (D / (2 * LED_FADE_STEPS))
          (smooth_blink_fade_out_step 1 (LED_FADE_STEPS - idx) s)).1).length
        = s.1.length + 2 := by
    intro s idx
    rw [length_k_msleep,
      show smooth_blink_fade_out_step 1 (LED_FADE_STEPS - idx) s
        = set_individual_led_brightness 3
            (get_led_brightness 3 s * (LED_FADE_STEPS - idx) / LED_FADE_STEPS) s from rfl,
      length_set]
  simp only [smooth_blink_once]
  rw [length_k_msleep, trace_len_foldl hout, length_k_msleep, trace_len_foldl hin,
    List.length_range]
  rfl

set_option maxRecDepth 100000 in
/-- C1: for every duration `D` (and any starting cache), `fade_in_led`
issues exactly `LED_FADE_STEPS + 1 = 101` brightness writes to the
faded LED; the written sequence is the map of `100 * i / 100` over
`i = 0, ..., 100`, hence monotonically non-decreasing with first value
0 and last value 100. -/
theorem fade_in_writes_C1 (D : Nat) (c : List Nat) (led : Nat) :
    writesTo led (fade_in_led led D ([], c)).1
        = (List.range (LED_FADE_STEPS + 1)).map (fun i => LED_STATUS_ON * i / LED_FADE_STEPS)
      ∧ (writesTo led (fade_in_led led D ([], c)).1).length = LED_FADE_STEPS + 1
      ∧ List.Pairwise (fun a b => a ≤ b) (writesTo led (fade_in_led led D ([], c)).1)
      ∧ (writesTo led (fade_in_led led D ([], c)).1).headD 1 = 0
      ∧ (writesTo led (fade_in_led led D ([], c)).1).getLastD 0 = LED_STATUS_ON := by
  have h : writesTo led (fade_in_led led D ([], c)).1
      = ([] : List Nat) ++ (List.range (LED_FADE_STEPS + 1)).map
          (fun i => (LED_STATUS_ON * i / LED_FADE_STEPS) % 256) := by
    unfold fade_in_led
    exact writesTo_fade_fold led (D / LED_FADE_STEPS)
      (fun i => LED_STATUS_ON * i / LED_FADE_STEPS) (List.range (LED_FADE_STEPS + 1)) [] c
  rw [h]
  refine ⟨?_, ?_, ?_, ?_, ?_⟩ <;> decide

/-- C3: the battery handler's animation is a pure function of the
battery percentage given by the inclusive ascending threshold ladder
(first match wins), and that ladder sends 10, 25, 45, 75, 95 to
(0b1000, 3), (0b1000, 1), (0b1100, 1), (0b1110, 1), (0b1110, 3)
respectively, with 15 and 16 on opposite sides of the first
threshold. -/
theorem battery_mapping_C3 :
    (∀ level s, battery_animation_handler level s
        = smooth_blink_leds (battery_choice_spec level).1 (battery_choice_spec level).2
            FADE_DURATION_BATTERY_MS s)
      ∧ battery_choice_spec 10 = (0b1000, 3)
      ∧ battery_choice_spec 25 = (0b1000, 1)
      ∧ battery_choice_spec 45 = (0b1100, 1)
      ∧ battery_choice_spec 75 = (0b1110, 1)
      ∧ battery_choice_spec 95 = (0b1110, 3)
      ∧ battery_choice_spec 15 = (0b1000, 3)
      ∧ battery_choice_spec 16 = (0b1000, 1) := by
  refine ⟨fun level s => ?_, by decide, by decide, by decide, by decide, by decide,
    by decide, by decide⟩
  unfold battery_animation_handler battery_choice_spec
  split_ifs <;> rfl

/-- C4: a blink with mask `0b1000` over the 4-LED array never writes
to any LED other than index 0, and leaves the cached brightness of
every other LED unchanged, for every repeat count and duration. -/
theorem blink_mask8_only_led0_C4 (count D : Nat) (t : List HWWrite) (c : List Nat)
    (led : Nat) (h : led ≠ 0) :
    writesTo led (smooth_blink_leds 0b1000 count D (t, c)).1 = writesTo led t
      ∧ (smooth_blink_leds 0b1000 count D (t, c)).2.getD led 0 = c.getD led 0 := by
  refine untouched_blink count D t c (fun k hk hm => ?_)
  have hk4 : k < 4 := hk
  have hk0 : k = 0 := by
    interval_cases k
    · rfl
    · exact absurd hm (by decide)
    · exact absurd hm (by decide)
    · exact absurd hm (by decide)
  rw [hk0]
  exact fun he => h he.symm

/-- Witness for C4 at count 2, duration 400, LED 1. -/
theorem blink_mask8_only_led0_C4_w :
    (1 : Nat) ≠ 0
      ∧ (writesTo 1 (smooth_blink_leds 0b1000 2 400 ([], [0, 0, 0, 0])).1 = writesTo 1 []
          ∧ (smooth_blink_leds 0b1000 2 400 ([], [0, 0, 0, 0])).2.getD 1 0
              = [0, 0, 0, 0].getD 1 0) :=
  ⟨by decide, blink_mask8_only_led0_C4 2 400 [] [0, 0, 0, 0] 1 (by decide)⟩

set_option maxRecDepth 100000 in
/-- C5 counterexample: in the disconnected case the handler's blink
issues no brightness write at all to LED index 0 — the writes go to
LED index 3 (mask `0b0001` is LSB = bit `LED_COUNT - 1 - 3`). -/
theorem disconnect_blink_cex_C5 :
    writesTo 0
        (check_bluetooth_connection_handler true false UsbConnState.none
          ([], [0, 0, 0, 0])).st.1 = []
      ∧ writesTo 3
          (check_bluetooth_connection_handler true false UsbConnState.none
            ([], [0, 0, 0, 0])).st.1 ≠ [] := by
  constructor
  · decide
  · decide

set_option maxRecDepth 100000 in
/-- C5 (amended): when the disconnect-check handler runs with the
checking flag set and no connectivity, it performs exactly one blink
repetition with mask `0b0001` and duration 300 ms; that blink writes
brightness only to LED index 3 (202 writes), and every other LED
receives no write. -/
theorem disconnect_blink_C5 (t : List HWWrite) (c : List Nat) (led : Nat) (h : led ≠ 3) :
    (check_bluetooth_connection_handler true false UsbConnState.none (t, c)).st
        = smooth_blink_leds 0b0001 1 FADE_DURATION_DISCONNECT_MS (t, c)
      ∧ writesTo led
          (check_bluetooth_connection_handler true false UsbConnState.none (t, c)).st.1
          = writesTo led t
      ∧ (writesTo 3
          (check_bluetooth_connection_handler true false UsbConnState.none
            ([], [0, 0, 0, 0])).st.1).length = 202 := by
  refine ⟨rfl, ?_, by decide⟩
  have hsel : ∀ k, k < LED_COUNT → mask_selects 0b0001 k → k ≠ led := by
    intro k hk hm
    have hk4 : k < 4 := hk
    have hk3 : k = 3 := by
      interval_cases k
      · exact absurd hm (by decide)
      · exact absurd hm (by decide)
      · exact absurd hm (by decide)
      · rfl
    rw [hk3]
    exact fun he => h he.symm
  exact (untouched_blink 1 FADE_DURATION_DISCONNECT_MS t c hsel).1

/-- Witness for C5 (amended) at LED 1 and cache [9, 9, 9, 9]. -/
theorem disconnect_blink_C5_w :
    (1 : Nat) ≠ 3
      ∧ ((check_bluetooth_connection_handler true false UsbConnState.none ([], [9, 9, 9, 9])).st
          = smooth_blink_leds 0b0001 1 FADE_DURATION_DISCONNECT_MS ([], [9, 9, 9, 9])
        ∧ writesTo 1
            (check_bluetooth_connection_handler true false UsbConnState.none
              ([], [9, 9, 9, 9])).st.1 = writesTo 1 []
        ∧ (writesTo 3
            (check_bluetooth_connection_handler true false UsbConnState.none
              ([], [0, 0, 0, 0])).st.1).length = 202) :=
  ⟨by decide, disconnect_blink_C5 [] [9, 9, 9, 9] 1 (by decide)⟩

/-- C6: the disconnect-check loop as a step relation.  (i) With the
checking flag clear a run is a no-op: no LED writes, no reschedule.
(ii) With the flag set and connectivity observed, the run clears the
flag without blinking or rescheduling, and (iii) from a cleared flag
every later invocation leaves the state unchanged.  (iv) If
connectivity never holds, every invocation keeps the flag set,
reschedules, and blinks (the trace grows by the 406 events of one
disconnect blink). -/
theorem check_loop_C6 :
    (∀ (ble : Bool) (usb : UsbConnState) (s : ST),
        check_bluetooth_connection_handler false ble usb s = ⟨false, false, s⟩)
      ∧ (∀ (ble : Bool) (usb : UsbConnState) (s : ST),
          (ble = true ∨ usb ≠ UsbConnState.none) →
          check_bluetooth_connection_handler true ble usb s = ⟨false, false, s⟩)
      ∧ (∀ (env : Nat → Bool × UsbConnState) (s : ST) (n : Nat),
          check_loop_iter env (false, s) n = (false, s))
      ∧ (∀ (env : Nat → Bool × UsbConnState),
          (∀ n, (env n).1 = false ∧ (env n).2 = UsbConnState.none) →
          ∀ (s : ST) (n : Nat),
            (check_loop_iter env (true, s) n).1 = true
            ∧ (check_bluetooth_connection_handler (check_loop_iter env (true, s) n).1
                (env n).1 (env n).2 (check_loop_iter env (true, s) n).2).rescheduled = true
            ∧ ((check_bluetooth_connection_handler (check_loop_iter env (true, s) n).1
                (env n).1 (env n).2 (check_loop_iter env (true, s) n).2).st.1).length
                = ((check_loop_iter env (true, s) n).2.1).length + 406) := by
  have hno : ∀ (ble : Bool) (usb : UsbConnState) (s : ST),
      check_bluetooth_connection_handler false ble usb s = ⟨false, false, s⟩ :=
    fun ble usb s => rfl
  have hconn : ∀ (ble : Bool) (usb : UsbConnState) (s : ST),
      (ble = true ∨ usb ≠ UsbConnState.none) →
      check_bluetooth_connection_handler true ble usb s = ⟨false, false, s⟩ := by
    intro ble usb s h
    unfold check_bluetooth_connection_handler
    rw [if_neg (by simp), if_pos h]
  have hdisc : ∀ s : ST, check_bluetooth_connection_handler true false UsbConnState.none s
      = ⟨true, true, smooth_blink_leds 1 1 FADE_DURATION_DISCONNECT_MS s⟩ :=
    fun s => rfl
  have hstay : ∀ (env : Nat → Bool × UsbConnState) (s : ST) (n : Nat),
      check_loop_iter env (false, s) n = (false, s) := by
    intro env s n
    induction n with
    | zero => rfl
    | succ n ih =>
      simp only [check_loop_iter, ih, hno]
  refine ⟨hno, hconn, hstay, ?_⟩
  intro env henv s n
  have hflag : ∀ m, (check_loop_iter env (true, s) m).1 = true := by
    intro m
    induction m with
    | zero => rfl
    | succ m ih =>
      simp only [check_loop_iter, ih, (henv m).1, (henv m).2, hdisc]
  refine ⟨hflag n, ?_, ?_⟩
  · rw [hflag n, (henv n).1, (henv n).2, hdisc]
  · rw [hflag n, (henv n).1, (henv n).2, hdisc]
    show ((smooth_blink_leds 1 1 FADE_DURATION_DISCONNECT_MS
        (check_loop_iter env (true, s) n).2).1).length = _
    rw [show ∀ s : ST, smooth_blink_leds 1 1 FADE_DURATION_DISCONNECT_MS s
        = smooth_blink_once 1 FADE_DURATION_DISCONNECT_MS s from fun s => rfl,
      blink_once_len_mask1]

/-- Witness for C6 with a never-connected environment, one tick in. -/
theorem check_loop_C6_w :
    (check_loop_iter (fun _ => (false, UsbConnState.none)) (true, ([], [0, 0, 0, 0])) 1).1
        = true
      ∧ (check_bluetooth_connection_handler
          (check_loop_iter (fun _ => (false, UsbConnState.none)) (true, ([], [0, 0, 0, 0])) 1).1
          false UsbConnState.none
          (check_loop_iter (fun _ => (false, UsbConnState.none))
            (true, ([], [0, 0, 0, 0])) 1).2).rescheduled = true :=
  ⟨(check_loop_C6.2.2.2 (fun _ => (false, UsbConnState.none)) (fun _ => ⟨rfl, rfl⟩)
      ([], [0, 0, 0, 0]) 1).1,
    (check_loop_C6.2.2.2 (fun _ => (false, UsbConnState.none)) (fun _ => ⟨rfl, rfl⟩)
      ([], [0, 0, 0, 0]) 1).2.1⟩

set_option maxRecDepth 100000 in
/-- C7: a profile-changed event with index greater than 2 schedules no
animation work and leaves the stored profile-blink-count unchanged; an
index in [0, 2] is stored and scheduled, and the handler then blinks
mask `0b1000 >> index` exactly once at the profile duration (400 ms),
its writes going precisely to LED `index`. -/
theorem ble_profile_C7 :
    (∀ index pcb : Nat, 2 < index → ble_profile_listener index pcb = (pcb, false))
      ∧ (∀ index pcb : Nat, index ≤ 2 → ble_profile_listener index pcb = (index, true))
      ∧ (∀ (pcb : Nat) (ch : Bool) (s : ST), (ble_profile_handler pcb ch s).1
            = smooth_blink_leds (0b1000 >>> pcb) 1 FADE_DURATION_PROFILE_MS s)
      ∧ (∀ index, index < 3 → ∀ led, led < 4 →
            (writesTo led ((ble_profile_handler index true ([], [0, 0, 0, 0])).1).1 ≠ []
              ↔ led = index)) := by
  refine ⟨?_, ?_, ?_, by decide⟩
  · intro i pcb h
    unfold ble_profile_listener
    rw [if_neg (by omega)]
  · intro i pcb h
    unfold ble_profile_listener
    rw [if_pos h]
  · intro pcb ch s
    unfold ble_profile_handler
    split_ifs <;> rfl

/-- Witness for C7 at out-of-range index 3 and in-range index 2. -/
theorem ble_profile_C7_w :
    ble_profile_listener 3 1 = (1, false) ∧ ble_profile_listener 2 5 = (2, true) :=
  ⟨ble_profile_C7.1 3 1 (by decide), ble_profile_C7.2.1 2 5 (by decide)⟩

theorem sleepsOf_set (k v : Nat) (s : ST) :
    sleepsOf (set_individual_led_brightness k v s).1 = sleepsOf s.1 := by
  rw [set_individual_led_brightness, sleepsOf_append]
  simp [sleepsOf]

theorem sleepsOf_sleep (d : Nat) (s : ST) :
    sleepsOf (k_msleep d s).1 = sleepsOf s.1 ++ [d] := by
  rw [k_msleep, sleepsOf_append]
  rfl

theorem sleepsOf_foldl {d : Nat} {f : ST → Nat → ST}
    (hf : ∀ s a, sleepsOf (f s a).1 = sleepsOf s.1 ++ [d]) :
    ∀ (l : List Nat) (s : ST),
      sleepsOf (l.foldl f s).1 = sleepsOf s.1 ++ List.replicate l.length d := by
  intro l
  induction l with
  | nil => intro s; simp
  | cons a as ih =>
    intro s
    rw [List.foldl_cons, ih, hf, List.length_cons, List.replicate_succ]
    simp

theorem sleepsOf_fade_out_step (j : Nat) (s : ST) :
    sleepsOf (fade_out_all_leds_step j s).1 = sleepsOf s.1 := by
  unfold fade_out_all_leds_step
  refine foldl_inv (P := fun s' : ST => sleepsOf s'.1 = sleepsOf s.1) _ s rfl
    (fun b k _ hb => ?_)
  dsimp only at hb ⊢
  rw [sleepsOf_set, hb]

theorem sleepsOf_blink_in_step (mask j : Nat) (s : ST) :
    sleepsOf (smooth_blink_fade_in_step mask j s).1 = sleepsOf s.1 := by
  unfold smooth_blink_fade_in_step
  refine foldl_inv (P := fun s' : ST => sleepsOf s'.1 = sleepsOf s.1) _ s rfl
    (fun b k _ hb => ?_)
  dsimp only at hb ⊢
  by_cases hm : mask_selects mask k
  · rw [if_pos hm, sleepsOf_set, hb]
  · rw [if_neg hm, hb]

theorem sleepsOf_blink_out_step (mask j : Nat) (s : ST) :
    sleepsOf (smooth_blink_fade_out_step mask j s).1 = sleepsOf s.1 := by
  unfold smooth_blink_fade_out_step
  refine foldl_inv (P := fun s' : ST => sleepsOf s'.1 = sleepsOf s.1) _ s rfl
    (fun b k _ hb => ?_)
  dsimp only at hb ⊢
  by_cases hm : mask_selects mask k
  · rw [if_pos hm, sleepsOf_set, hb]
  · rw [if_neg hm, hb]

theorem sleepsOf_blink_once (mask D : Nat) (s : ST) :
    sleepsOf (smooth_blink_once mask D s).1
      = sleepsOf s.1
        ++ (List.replicate (LED_FADE_STEPS + 1) (D / (2 * LED_FADE_STEPS))
          ++ BLINK_HOLD_DURATION_MS
            :: (List.replicate (LED_FADE_STEPS + 1) (D / (2 * LED_FADE_STEPS))
              ++ [BLINK_HOLD_DURATION_MS])) := by
  have hin : ∀ (s : ST) (j : Nat),
      sleepsOf (k_msleep (D / (2 * LED_FADE_STEPS)) (smooth_blink_fade_in_step mask j s)).1
        = sleepsOf s.1 ++ [D / (2 * LED_FADE_STEPS)] := by
    intro s j
    rw [sleepsOf_sleep, sleepsOf_blink_in_step]
  have hout : ∀ (s : ST) (idx : Nat),
      sleepsOf (k_msleep (D / (2 * LED_FADE_STEPS))
          (smooth_blink_fade_out_step mask (LED_FADE_STEPS - idx) s)).1
        = sleepsOf s.1 ++ [D / (2 * LED_FADE_STEPS)] := by
    intro s idx
    rw [sleepsOf_sleep, sleepsOf_blink_out_step]
  simp only [smooth_blink_once]
  rw [sleepsOf_sleep, sleepsOf_foldl hout, sleepsOf_sleep, sleepsOf_foldl hin,
    List.length_range]
  simp

theorem flatten_replicate_succ {a : Type} (n : Nat) (x : List a) :
    (List.replicate (n + 1) x).flatten = (List.replicate n x).flatten ++ x := by
  rw [List.replicate_succ', List.flatten_append]
  simp

theorem sleepsOf_blink (mask count D : Nat) :
    ∀ s : ST,
      sleepsOf (smooth_blink_leds mask count D s).1
        = sleepsOf s.1
          ++ (List.replicate count
              (List.replicate (LED_FADE_STEPS + 1) (D / (2 * LED_FADE_STEPS))
                ++ BLINK_HOLD_DURATION_MS
                  :: (List.replicate (LED_FADE_STEPS + 1) (D / (2 * LED_FADE_STEPS))
                    ++ [BLINK_HOLD_DURATION_MS]))).flatten := by
  unfold smooth_blink_leds
  induction count with
  | zero => intro s; simp
  | succ n ih =>
    intro s
    rw [List.range_succ, List.foldl_append, List.foldl_cons, List.foldl_nil,
      sleepsOf_blink_once, ih, flatten_replicate_succ]
    simp

set_option maxRecDepth 100000 in
/-- C8 counterexample: at duration 400 ms the blink's fade phases
sleep `400 / (2 * LED_FADE_STEPS) = 2` ms after each step, not
`400 / LED_FADE_STEPS = 4` ms as the claim states for every
primitive. -/
theorem step_delay_cex_C8 :
    (sleepsOf (smooth_blink_leds 0b1000 1 400 ([], [0, 0, 0, 0])).1).getD 0 0 = 2
      ∧ 400 / LED_FADE_STEPS = 4 ∧ (2 : Nat) ≠ 4 := by
  refine ⟨by decide, by decide, by decide⟩

/-- C8 (amended): every animation primitive steps brightness in
`LED_FADE_STEPS` (=100) discrete increments and follows each step by a
fixed sleep — of `D / LED_FADE_STEPS` ms for `fade_in_led` and
`fade_out_all_leds`, but of `D / (2 * LED_FADE_STEPS)` ms for the two
fade phases of `smooth_blink_leds` (with the two 100 ms holds in
between). -/
theorem step_delay_C8 (D led mask count : Nat) (t : List HWWrite) (c : List Nat) :
    sleepsOf (fade_in_led led D (t, c)).1
        = sleepsOf t ++ List.replicate (LED_FADE_STEPS + 1) (D / LED_FADE_STEPS)
      ∧ sleepsOf (fade_out_all_leds D (t, c)).1
          = sleepsOf t ++ List.replicate (LED_FADE_STEPS + 1) (D / LED_FADE_STEPS)
      ∧ sleepsOf (smooth_blink_leds mask count D (t, c)).1
          = sleepsOf t
            ++ (List.replicate count
                (List.replicate (LED_FADE_STEPS + 1) (D / (2 * LED_FADE_STEPS))
                  ++ BLINK_HOLD_DURATION_MS
                    :: (List.replicate (LED_FADE_STEPS + 1) (D / (2 * LED_FADE_STEPS))
                      ++ [BLINK_HOLD_DURATION_MS]))).flatten := by
  refine ⟨?_, ?_, sleepsOf_blink mask count D (t, c)⟩
  · unfold fade_in_led
    rw [sleepsOf_foldl (fun s i => by rw [sleepsOf_sleep, sleepsOf_set]),
      List.length_range]
  · unfold fade_out_all_leds
    rw [sleepsOf_foldl (fun s idx => by rw [sleepsOf_sleep, sleepsOf_fade_out_step]),
      List.length_range]

theorem fade_out_step_eq (j : Nat) (t : List HWWrite) (b0 b1 b2 b3 : Nat) :
    k_msleep 7 (fade_out_all_leds_step j (t, [b0, b1, b2, b3]))
      = ((((((t ++ [HWWrite.setB 0 (b0 * j / LED_FADE_STEPS)])
            ++ [HWWrite.setB 1 (b1 * j / LED_FADE_STEPS)])
            ++ [HWWrite.setB 2 (b2 * j / LED_FADE_STEPS)])
            ++ [HWWrite.setB 3 (b3 * j / LED_FADE_STEPS)])
            ++ [HWWrite.sleep 7]),
         [b0 * j / LED_FADE_STEPS % 256, b1 * j / LED_FADE_STEPS % 256,
          b2 * j / LED_FADE_STEPS % 256, b3 * j / LED_FADE_STEPS % 256]) := rfl

theorem fade_out_writes_fold (d : Nat) :
    ∀ (js : List Nat) (t : List HWWrite) (b0 b1 b2 b3 : Nat) (led : Nat), led < 4 →
      writesTo led ((js.foldl (fun s j => k_msleep d (fade_out_all_leds_step j s))
          (t, [b0, b1, b2, b3])).1)
        = writesTo led t ++ cascW ([b0, b1, b2, b3].getD led 0) js := by
  intro js
  induction js with
  | nil =>
    intro t b0 b1 b2 b3 led hled
    simp [cascW]
  | cons j rest ih =>
    intro t b0 b1 b2 b3 led hled
    rw [List.foldl_cons]
    rw [show k_msleep d (fade_out_all_leds_step j (t, [b0, b1, b2, b3]))
        = ((((((t ++ [HWWrite.setB 0 (b0 * j / LED_FADE_STEPS)])
              ++ [HWWrite.setB 1 (b1 * j / LED_FADE_STEPS)])
              ++ [HWWrite.setB 2 (b2 * j / LED_FADE_STEPS)])
              ++ [HWWrite.setB 3 (b3 * j / LED_FADE_STEPS)])
              ++ [HWWrite.sleep d]),
           [b0 * j / LED_FADE_STEPS % 256, b1 * j / LED_FADE_STEPS % 256,
            b2 * j / LED_FADE_STEPS % 256, b3 * j / LED_FADE_STEPS % 256]) from rfl]
    rw [ih _ _ _ _ _ led hled]
    interval_cases led <;>
      simp [cascW, writesTo_append, writesTo_setB, writesTo]

theorem cascW_length : ∀ (js : List Nat) (b : Nat), (cascW b js).length = js.length := by
  intro js
  induction js with
  | nil => intro b; rfl
  | cons j rest ih => intro b; simp [cascW, ih]

theorem cascW_all_le : ∀ (js : List Nat) (b : Nat), (∀ j ∈ js, j ≤ 100) →
    ∀ v ∈ cascW b js, v ≤ b := by
  intro js
  induction js with
  | nil => intro b _ v hv; simp [cascW] at hv
  | cons j rest ih =>
    intro b hj v hv
    have h100 : b * 100 / LED_FADE_STEPS = b := Nat.mul_div_cancel b (by decide)
    have hstep : b * j / LED_FADE_STEPS % 256 ≤ b :=
      le_trans (Nat.mod_le _ _) (le_trans (Nat.div_le_div_right
        (Nat.mul_le_mul_left b (hj j (List.mem_cons_self j rest)))) (le_of_eq h100))
    rw [cascW] at hv
    rcases List.mem_cons.mp hv with h | h
    · rw [h]; exact hstep
    · exact le_trans (ih _ (fun x hx => hj x (List.mem_cons_of_mem j hx)) v h) hstep

theorem cascW_pairwise : ∀ (js : List Nat) (b : Nat), (∀ j ∈ js, j ≤ 100) →
    List.Pairwise (fun x y => y ≤ x) (cascW b js) := by
  intro js
  induction js with
  | nil => intro b _; simp [cascW]
  | cons j rest ih =>
    intro b hj
    rw [cascW, List.pairwise_cons]
    refine ⟨cascW_all_le rest _ (fun x hx => hj x (List.mem_cons_of_mem j hx)),
      ih _ (fun x hx => hj x (List.mem_cons_of_mem j hx))⟩

theorem cascW_ne_nil (js : List Nat) (b : Nat) (h : js ≠ []) : cascW b js ≠ [] := by
  intro hc
  exact h (List.length_eq_zero.mp (by rw [← cascW_length js b, hc]; rfl))

theorem getLast?_cons_ne {a : Type} (x : a) (l : List a) (h : l ≠ []) :
    (x :: l).getLast? = l.getLast? := by
  cases l with
  | nil => exact absurd rfl h
  | cons y ys => rw [List.getLast?_cons_cons]

theorem cascW_last_zero : ∀ (js : List Nat) (b : Nat), js ≠ [] → js.getLast? = some 0 →
    (cascW b js).getLast? = some 0 := by
  intro js
  induction js with
  | nil => intro b h; exact absurd rfl h
  | cons j rest ih =>
    intro b _ hlast
    by_cases hr : rest = []
    · subst hr
      have hj0 : j = 0 := Option.some.inj hlast
      subst hj0
      simp [cascW]
    · rw [getLast?_cons_ne j rest hr] at hlast
      rw [cascW, getLast?_cons_ne _ _ (cascW_ne_nil rest _ hr)]
      exact ih _ hr hlast

set_option maxRecDepth 100000 in
/-- C2 counterexample: starting from cached brightness B = 100, the
write of `fade_out_all_leds` at descending step j = 98 (the third
write) is 97, not `B * 98 / 100 = 98`: the loop rescales the already
updated cache, not the initial brightness. -/
theorem fade_out_cex_C2 :
    (writesTo 0 (fade_out_all_leds 0 ([], [100, 0, 0, 0])).1).getD 2 0 = 97
      ∧ 100 * 98 / 100 = 98 ∧ (97 : Nat) ≠ 98 := by
  refine ⟨by decide, by decide, by decide⟩

set_option maxRecDepth 100000 in
/-- C2 (amended): for every LED, the brightness sequence written by
`fade_out_all_leds` is the cascade in which the value at descending
step j is `prev * j / 100` (integer truncation, as a `uint8_t`) of the
value `prev` written at the previous step — i.e. of the LED's current
cached brightness — starting from the cached brightness at entry; it
has 101 entries, is monotonically non-increasing, and ends at 0. -/
theorem fade_out_C2 (D b0 b1 b2 b3 led : Nat) (hled : led < 4) :
    writesTo led (fade_out_all_leds D ([], [b0, b1, b2, b3])).1
        = cascW ([b0, b1, b2, b3].getD led 0) descSteps
      ∧ (writesTo led (fade_out_all_leds D ([], [b0, b1, b2, b3])).1).length
          = LED_FADE_STEPS + 1
      ∧ List.Pairwise (fun x y => y ≤ x)
          (writesTo led (fade_out_all_leds D ([], [b0, b1, b2, b3])).1)
      ∧ (writesTo led (fade_out_all_leds D ([], [b0, b1, b2, b3])).1).getLastD 1 = 0 := by
  have h1 : fade_out_all_leds D ([], [b0, b1, b2, b3])
      = descSteps.foldl
          (fun s j => k_msleep (D / LED_FADE_STEPS) (fade_out_all_leds_step j s))
          ([], [b0, b1, b2, b3]) := by
    unfold fade_out_all_leds descSteps
    rw [List.foldl_map]
  have h2 : writesTo led (fade_out_all_leds D ([], [b0, b1, b2, b3])).1
      = cascW ([b0, b1, b2, b3].getD led 0) descSteps := by
    rw [h1, fade_out_writes_fold (D / LED_FADE_STEPS) descSteps [] b0 b1 b2 b3 led hled]
    rfl
  have hjs : ∀ j ∈ descSteps, j ≤ 100 := by decide
  refine ⟨h2, ?_, ?_, ?_⟩
  · rw [h2, cascW_length]
    decide
  · rw [h2]
    exact cascW_pairwise descSteps _ hjs
  · rw [h2, List.getLastD_eq_getLast?, cascW_last_zero descSteps _ (by decide) (by decide)]
    rfl

theorem lastHWValue_append_setB (t : List HWWrite) (l v led : Nat) :
    lastHWValue (t ++ [HWWrite.setB l v]) led
      = if l = led then some (v % 256) else lastHWValue t led := by
  unfold lastHWValue
  rw [List.foldl_append]
  rfl

theorem lastHWValue_append_sleep (t : List HWWrite) (d led : Nat) :
    lastHWValue (t ++ [HWWrite.sleep d]) led = lastHWValue t led := by
  unfold lastHWValue
  rw [List.foldl_append]
  rfl

theorem getD_set_self (c : List Nat) (k v : Nat) (h : k < c.length) :
    (c.set k v).getD k 0 = v := by
  simp [List.getD_eq_getElem?_getD, List.getElem?_set_self, h]

theorem coherent_set {c0 : List Nat} (k v : Nat) {s : ST} (h : Coherent c0 s) :
    Coherent c0 (set_individual_led_brightness k v s) := by
  obtain ⟨hlen, hco⟩ := h
  refine ⟨by simp [set_individual_led_brightness, hlen], ?_⟩
  intro led hled
  unfold set_individual_led_brightness
  dsimp only
  rw [lastHWValue_append_setB]
  by_cases hk : k = led
  · subst hk
    rw [if_pos rfl, getD_set_self s.2 k (v % 256) (by rw [hlen]; exact hled)]
    rfl
  · rw [if_neg hk, getD_set_ne s.2 hk, hco led hled]

theorem coherent_sleep {c0 : List Nat} (d : Nat) {s : ST} (h : Coherent c0 s) :
    Coherent c0 (k_msleep d s) := by
  obtain ⟨hlen, hco⟩ := h
  refine ⟨hlen, fun led hled => ?_⟩
  unfold k_msleep
  dsimp only
  rw [lastHWValue_append_sleep]
  exact hco led hled

theorem coherent_fade_in {c0 : List Nat} (led D : Nat) {s : ST} (h : Coherent c0 s) :
    Coherent c0 (fade_in_led led D s) := by
  unfold fade_in_led
  exact foldl_inv _ s h (fun b i _ hb => coherent_sleep _ (coherent_set _ _ hb))

theorem coherent_fade_out_step {c0 : List Nat} (j : Nat) {s : ST} (h : Coherent c0 s) :
    Coherent c0 (fade_out_all_leds_step j s) := by
  unfold fade_out_all_leds_step
  exact foldl_inv _ s h (fun b i _ hb => coherent_set _ _ hb)

theorem coherent_fade_out {c0 : List Nat} (D : Nat) {s : ST} (h : Coherent c0 s) :
    Coherent c0 (fade_out_all_leds D s) := by
  unfold fade_out_all_leds
  exact foldl_inv _ s h (fun b i _ hb => coherent_sleep _ (coherent_fade_out_step _ hb))

theorem coherent_blink_in_step {c0 : List Nat} (mask j : Nat) {s : ST} (h : Coherent c0 s) :
    Coherent c0 (smooth_blink_fade_in_step mask j s) := by
  unfold smooth_blink_fade_in_step
  refine foldl_inv _ s h (fun b k _ hb => ?_)
  by_cases hm : mask_selects mask k
  · rw [if_pos hm]
    exact coherent_set _ _ hb
  · rw [if_neg hm]
    exact hb

theorem coherent_blink_out_step {c0 : List Nat} (mask j : Nat) {s : ST} (h : Coherent c0 s) :
    Coherent c0 (smooth_blink_fade_out_step mask j s) := by
  unfold smooth_blink_fade_out_step
  refine foldl_inv _ s h (fun b k _ hb => ?_)
  by_cases hm : mask_selects mask k
  · rw [if_pos hm]
    exact coherent_set _ _ hb
  · rw [if_neg hm]
    exact hb

theorem coherent_blink_once {c0 : List Nat} (mask D : Nat) {s : ST} (h : Coherent c0 s) :
    Coherent c0 (smooth_blink_once mask D s) := by
  unfold smooth_blink_once
  refine coherent_sleep _ ?_
  refine foldl_inv _ _ ?_
    (fun b j _ hb => coherent_sleep _ (coherent_blink_out_step _ _ hb))
  refine coherent_sleep _ ?_
  exact foldl_inv _ _ h (fun b j _ hb => coherent_sleep _ (coherent_blink_in_step _ _ hb))

theorem coherent_blink {c0 : List Nat} (mask count D : Nat) {s : ST} (h : Coherent c0 s) :
    Coherent c0 (smooth_blink_leds mask count D s) := by
  unfold smooth_blink_leds
  exact foldl_inv _ s h (fun b _ _ hb => coherent_blink_once _ _ hb)

set_option maxRecDepth 100000 in
set_option maxHeartbeats 2000000 in
/-- C9 counterexample: after `set_individual_led_brightness(LED_1,
100)` followed by `turn_off_all_leds()`, the hardware most recently
received an off command (level 0) for LED 0, but the cached brightness
still reads 100: `turn_off_all_leds` bypasses the cache, so the
claimed invariant fails for sequences containing it. -/
theorem cache_coherence_cex_C9 :
    lastHWValue (runOps ([], [0, 0, 0, 0]) [LedOp.set_led 0 100, LedOp.off_all]).1 0 = some 0
      ∧ (runOps ([], [0, 0, 0, 0]) [LedOp.set_led 0 100, LedOp.off_all]).2.getD 0 0 = 100
      ∧ ¬ (lastHWValue (runOps ([], [0, 0, 0, 0])
              [LedOp.set_led 0 100, LedOp.off_all]).1 0).getD ([0, 0, 0, 0].getD 0 0)
            = (runOps ([], [0, 0, 0, 0]) [LedOp.set_led 0 100, LedOp.off_all]).2.getD 0 0 := by
  decide

set_option maxHeartbeats 2000000 in
/-- C9 (amended): after any sequence of the module's LED-writing
operations that does not contain `turn_off_all_leds`, each LED's
cached brightness equals the value most recently written to the
hardware for that LED (or its initial cache entry if none was). -/
theorem cache_coherence_C9 (ops : List LedOp) (hops : LedOp.off_all ∉ ops) (c : List Nat)
    (hc : c.length = 4) (led : Nat) (hled : led < 4) :
    (lastHWValue (runOps ([], c) ops).1 led).getD (c.getD led 0)
      = (runOps ([], c) ops).2.getD led 0 := by
  have h : Coherent c (runOps ([], c) ops) := by
    unfold runOps
    refine foldl_inv ops ([], c) ⟨hc, fun l hl => rfl⟩ (fun b op hmem hb => ?_)
    cases op with
    | set_led k v =>
      simp only [runOp]
      exact coherent_set k v hb
    | fade_in l d =>
      simp only [runOp]
      exact coherent_fade_in l d hb
    | fade_out d =>
      simp only [runOp]
      exact coherent_fade_out d hb
    | blink m cnt d =>
      simp only [runOp]
      exact coherent_blink m cnt d hb
    | off_all => exact absurd hmem hops
  exact h.2 led hled

set_option maxRecDepth 100000 in
set_option maxHeartbeats 1000000 in
/-- Witness for C9 (amended): a fade-in then a fade-out on LED 0. -/
theorem cache_coherence_C9_w :
    (LedOp.off_all ∉ [LedOp.fade_in 0 0, LedOp.fade_out 0]
        ∧ ([100, 0, 0, 0] : List Nat).length = 4 ∧ (0 : Nat) < 4)
      ∧ (lastHWValue (runOps ([], [100, 0, 0, 0]) [LedOp.fade_in 0 0, LedOp.fade_out 0]).1
            0).getD ([100, 0, 0, 0].getD 0 0)
          = (runOps ([], [100, 0, 0, 0]) [LedOp.fade_in 0 0, LedOp.fade_out 0]).2.getD 0 0 :=
  ⟨by decide,
    cache_coherence_C9 [LedOp.fade_in 0 0, LedOp.fade_out 0] (by decide) [100, 0, 0, 0]
      (by decide) 0 (by decide)⟩

theorem scale_le (cur j : Nat) (hcur : cur ≤ 100) (hj : j ≤ 100) :
    cur * j / LED_FADE_STEPS ≤ 100 := by
  have h100 : cur * 100 / LED_FADE_STEPS = cur := Nat.mul_div_cancel cur (by decide)
  exact le_trans (le_trans (Nat.div_le_div_right (Nat.mul_le_mul_left cur hj))
    (le_of_eq h100)) hcur

theorem getD_bound {s : ST} (h : InRange s) (k : Nat) (hk : k < 4) : s.2.getD k 0 ≤ 100 := by
  have hk' : k < s.2.length := by rw [h.1]; exact hk
  have hmem : s.2.getD k 0 ∈ s.2 := by
    rw [List.getD_eq_getElem s.2 0 hk']
    exact List.getElem_mem hk'
  exact h.2.1 _ hmem

theorem inrange_set (k v : Nat) (hv : v ≤ 100) {s : ST} (h : InRange s) :
    InRange (set_individual_led_brightness k v s) := by
  obtain ⟨hlen, hcache, htrace⟩ := h
  refine ⟨by simp [set_individual_led_brightness, hlen], ?_, ?_⟩
  · intro b hb
    unfold set_individual_led_brightness at hb
    dsimp only at hb
    rcases List.mem_or_eq_of_mem_set hb with h1 | h1
    · exact hcache b h1
    · rw [h1]
      exact le_trans (Nat.mod_le v 256) hv
  · intro e he l v' hev
    unfold set_individual_led_brightness at he
    dsimp only at he
    rcases List.mem_append.mp he with h1 | h1
    · exact htrace e h1 l v' hev
    · rw [List.mem_singleton.mp h1] at hev
      injection hev with h2 h3
      rw [← h3]
      exact hv

theorem inrange_sleep (d : Nat) {s : ST} (h : InRange s) : InRange (k_msleep d s) := by
  obtain ⟨hlen, hcache, htrace⟩ := h
  refine ⟨hlen, hcache, ?_⟩
  intro e he l v hev
  unfold k_msleep at he
  dsimp only at he
  rcases List.mem_append.mp he with h1 | h1
  · exact htrace e h1 l v hev
  · rw [List.mem_singleton.mp h1] at hev
    exact absurd hev (by simp)

theorem inrange_fade_in (led D : Nat) {s : ST} (h : InRange s) :
    InRange (fade_in_led led D s) := by
  unfold fade_in_led
  refine foldl_inv _ s h (fun b i hi hb => inrange_sleep _ (inrange_set led _ ?_ hb))
  have hi' : i < 101 := List.mem_range.mp hi
  rw [show LED_STATUS_ON * i / LED_FADE_STEPS = i from Nat.mul_div_cancel_left i (by decide)]
  omega

theorem inrange_fade_out_step (j : Nat) (hj : j ≤ 100) {s : ST} (h : InRange s) :
    InRange (fade_out_all_leds_step j s) := by
  unfold fade_out_all_leds_step
  refine foldl_inv _ s h (fun b k hk hb =>
    inrange_set k _ (scale_le _ j (getD_bound hb k (List.mem_range.mp hk)) hj) hb)

theorem inrange_fade_out (D : Nat) {s : ST} (h : InRange s) :
    InRange (fade_out_all_leds D s) := by
  unfold fade_out_all_leds
  exact foldl_inv _ s h (fun b idx _ hb =>
    inrange_sleep _ (inrange_fade_out_step _ (Nat.sub_le _ _) hb))

theorem inrange_blink_in_step (mask j : Nat) (hj : j ≤ 100) {s : ST} (h : InRange s) :
    InRange (smooth_blink_fade_in_step mask j s) := by
  unfold smooth_blink_fade_in_step
  refine foldl_inv _ s h (fun b k _ hb => ?_)
  by_cases hm : mask_selects mask k
  · rw [if_pos hm]
    refine inrange_set k _ ?_ hb
    rw [show LED_STATUS_ON * j / LED_FADE_STEPS = j
      from Nat.mul_div_cancel_left j (by decide)]
    exact hj
  · rw [if_neg hm]
    exact hb

theorem inrange_blink_out_step (mask j : Nat) (hj : j ≤ 100) {s : ST} (h : InRange s) :
    InRange (smooth_blink_fade_out_step mask j s) := by
  unfold smooth_blink_fade_out_step
  refine foldl_inv _ s h (fun b k hk hb => ?_)
  by_cases hm : mask_selects mask k
  · rw [if_pos hm]
    exact inrange_set k _ (scale_le _ j (getD_bound hb k (List.mem_range.mp hk)) hj) hb
  · rw [if_neg hm]
    exact hb

theorem inrange_blink_once (mask D : Nat) {s : ST} (h : InRange s) :
    InRange (smooth_blink_once mask D s) := by
  unfold smooth_blink_once
  refine inrange_sleep _ ?_
  refine foldl_inv _ _ ?_
    (fun b idx _ hb => inrange_sleep _ (inrange_blink_out_step _ _ (Nat.sub_le _ _) hb))
  refine inrange_sleep _ ?_
  refine foldl_inv _ _ h (fun b j hj hb => inrange_sleep _ (inrange_blink_in_step _ _ ?_ hb))
  have hj' : j < 101 := List.mem_range.mp hj
  omega

theorem inrange_blink (mask count D : Nat) {s : ST} (h : InRange s) :
    InRange (smooth_blink_leds mask count D s) := by
  unfold smooth_blink_leds
  exact foldl_inv _ s h (fun b _ _ hb => inrange_blink_once _ _ hb)

theorem inrange_off_all {s : ST} (h : InRange s) : InRange (turn_off_all_leds s) := by
  obtain ⟨hlen, hcache, htrace⟩ := h
  rw [show turn_off_all_leds s
      = ((((s.1 ++ [HWWrite.off 0]) ++ [HWWrite.off 1]) ++ [HWWrite.off 2])
          ++ [HWWrite.off 3], s.2) from rfl]
  refine ⟨hlen, hcache, ?_⟩
  intro e he l v hev
  dsimp only at he
  simp only [List.mem_append, List.mem_singleton] at he
  rcases he with (((h1 | h1) | h1) | h1) | h1
  · exact htrace e h1 l v hev
  all_goals rw [h1] at hev; exact absurd hev (by simp)

set_option maxHeartbeats 2000000 in
theorem inrange_runOp (op : LedOp) (hop : op.isAnim = true) {s : ST} (h : InRange s) :
    InRange (runOp s op) := by
  cases op with
  | set_led k v => exact absurd hop (by simp [LedOp.isAnim])
  | fade_in l d =>
    simp only [runOp]
    exact inrange_fade_in l d h
  | fade_out d =>
    simp only [runOp]
    exact inrange_fade_out d h
  | blink m cnt d =>
    simp only [runOp]
    exact inrange_blink m cnt d h
  | off_all =>
    simp only [runOp]
    exact inrange_off_all h

set_option maxHeartbeats 2000000 in
/-- C10: starting from a cache with all four entries in [0, 100],
after any sequence of animation operations every cache entry is still
in [0, 100], every brightness argument ever passed to
`set_individual_led_brightness` is in [0, 100], and consequently the
`uint8_t` conversion truncates nothing (`v % 256 = v` for every
written value). -/
theorem brightness_range_C10 (ops : List LedOp) (hops : ∀ op ∈ ops, op.isAnim = true)
    (c : List Nat) (hc : c.length = 4) (hcb : ∀ b ∈ c, b ≤ 100) :
    (∀ b ∈ (runOps ([], c) ops).2, b ≤ 100)
      ∧ (∀ e ∈ (runOps ([], c) ops).1, ∀ l v, e = HWWrite.setB l v → v ≤ 100)
      ∧ ∀ e ∈ (runOps ([], c) ops).1, ∀ l v, e = HWWrite.setB l v → v % 256 = v := by
  have h : InRange (runOps ([], c) ops) := by
    unfold runOps
    refine foldl_inv ops ([], c)
      ⟨hc, hcb, fun e he => absurd he (List.not_mem_nil e)⟩
      (fun b op hmem hb => inrange_runOp op (hops op hmem) hb)
  exact ⟨h.2.1, h.2.2, fun e he l v hev =>
    Nat.mod_eq_of_lt (lt_of_le_of_lt (h.2.2 e he l v hev) (by decide))⟩

set_option maxRecDepth 100000 in
set_option maxHeartbeats 1000000 in
/-- Witness for C10: one blink of LED 0 from cache [100, 50, 0, 0]. -/
theorem brightness_range_C10_w :
    ((∀ op ∈ [LedOp.blink 8 1 400], op.isAnim = true)
        ∧ ([100, 50, 0, 0] : List Nat).length = 4 ∧ (∀ b ∈ [100, 50, 0, 0], b ≤ 100))
      ∧ ((∀ b ∈ (runOps ([], [100, 50, 0, 0]) [LedOp.blink 8 1 400]).2, b ≤ 100)
          ∧ (∀ e ∈ (runOps ([], [100, 50, 0, 0]) [LedOp.blink 8 1 400]).1,
              ∀ l v, e = HWWrite.setB l v → v ≤ 100)
          ∧ ∀ e ∈ (runOps ([], [100, 50, 0, 0]) [LedOp.blink 8 1 400]).1,
              ∀ l v, e = HWWrite.setB l v → v % 256 = v) :=
  ⟨by decide,
    brightness_range_C10 [LedOp.blink 8 1 400] (by decide) [100, 50, 0, 0] (by decide)
      (by decide)⟩

/-- Witness for C2 (amended) at LED 0 starting from brightness 100. -/
theorem fade_out_C2_w :
    (0 : Nat) < 4
      ∧ (writesTo 0 (fade_out_all_leds 100 ([], [100, 0, 0, 0])).1
            = cascW ([100, 0, 0, 0].getD 0 0) descSteps
          ∧ (writesTo 0 (fade_out_all_leds 100 ([], [100, 0, 0, 0])).1).length
              = LED_FADE_STEPS + 1
          ∧ List.Pairwise (fun x y => y ≤ x)
              (writesTo 0 (fade_out_all_leds 100 ([], [100, 0, 0, 0])).1)
          ∧ (writesTo 0 (fade_out_all_leds 100 ([], [100, 0, 0, 0])).1).getLastD 1 = 0) :=
  ⟨by decide, fade_out_C2 100 100 0 0 0 0 (by decide)⟩


end Kabarga
